import Mathlib

/-
Verification of the RASA repository (main.py, custom_tools.py): a shallow
embedding of its router, knowledge store tools, and orchestration graph,
with theorems settling the specification's claims.

Python strings are modelled as `List Char`; the repository only manipulates
ASCII text, for which Lean's `Char.toLower` agrees with Python's `str.lower`
and the ASCII whitespace set below agrees with `str.strip`.
-/

set_option autoImplicit false

/-- ASCII whitespace characters removed by Python's `str.strip()`. -/
def isPySpace (c : Char) : Bool :=
  c = ' ' || c = '\t' || c = '\n' || c = '\r' || c = '\x0b' || c = '\x0c'

/-- Model of Python `str.lower()` (ASCII scope). -/
def toLowerL (s : List Char) : List Char := s.map Char.toLower

/-- `startsWithL p s` is true when `p` is an initial run of `s`. -/
def startsWithL : List Char → List Char → Bool
  | [], _ => true
  | _ :: _, [] => false
  | p :: ps, c :: cs => p = c && startsWithL ps cs

/-- Model of Python's `in` operator on strings: substring containment. -/
def hasSub (pat : List Char) : List Char → Bool
  | [] => pat.isEmpty
  | c :: rest => startsWithL pat (c :: rest) || hasSub pat rest

/-- Model of Python `str.strip()`: drop whitespace at both ends. -/
def stripL (s : List Char) : List Char :=
  ((s.dropWhile isPySpace).reverse.dropWhile isPySpace).reverse

/-- Model of Python `str.split(" on ")`: split on each non-overlapping
leftmost occurrence of the four-character separator `' ', 'o', 'n', ' '`. -/
def splitOnSep : List Char → List (List Char)
  | [] => [[]]
  | ' ' :: 'o' :: 'n' :: ' ' :: rest => [] :: splitOnSep rest
  | c :: rest =>
    match splitOnSep rest with
    | [] => [[c]]
    | p :: ps => (c :: p) :: ps

/-- Last element of a split result; Python's `[-1]` on the non-empty list
returned by `str.split`. -/
def lastD (l : List (List Char)) : List Char := l.getLastD []

/-- A model-emitted request to invoke a named tool with string arguments
(langchain `tool_calls` entry). -/
structure ToolCall where
  name : List Char
  args : List (List Char × List Char)
deriving DecidableEq

/-- A message in the conversation history: its text content and the tool
call requests it carries (empty for human messages and final answers). -/
structure Msg where
  content : List Char
  toolCalls : List ToolCall
deriving DecidableEq

/-- The intent literal of `RASAState` in main.py. -/
inductive Intent where
  | RESEARCH
  | STUDY
  | GENERAL
deriving DecidableEq

/-- The shared graph state of main.py (`class RASAState(TypedDict)`). -/
structure RASAState where
  messages : List Msg
  user_id : Int
  research_topic : List Char
  intent : Intent
deriving DecidableEq

/-- Embedding of `route_request` (main.py, lines 54-71). The result is the
updated `(intent, research_topic)` pair; `none` models the `IndexError`
raised by `state["messages"][-1]` on an empty message list. -/
def route_request (state : RASAState) : Option (Intent × List Char) :=
  match state.messages.getLast? with
  | none => none
  | some m =>
    let lower := toLowerL m.content
    if hasSub ("research".toList) lower || hasSub ("find facts".toList) lower then
      some (.RESEARCH, stripL (lastD (splitOnSep m.content)))
    else if hasSub ("test me".toList) lower || hasSub ("explain".toList) lower then
      some (.STUDY, stripL (lastD (splitOnSep m.content)))
    else
      some (.GENERAL, "General Inquiry".toList)

/-- A human message with the given content and no tool calls. -/
def humanMsg (s : String) : Msg := { content := s.toList, toolCalls := [] }

/-- A conversation state holding exactly the given messages, with the
initial field values used in main.py's example invocations. -/
def stateWith (msgs : List Msg) : RASAState :=
  { messages := msgs, user_id := 101, research_topic := [], intent := .GENERAL }

/-- C1 counterexample: on "Please research the current state of Quantum
Computing" the router does not extract the topic "Quantum Computing" —
the message contains no literal " on ", so `split(" on ")[-1]` is the
whole message. -/
theorem router_research_example_topic_not_extracted :
    route_request (stateWith [humanMsg "Please research the current state of Quantum Computing"]) ≠
      some (Intent.RESEARCH, "Quantum Computing".toList) := by
  decide

/-- C1 amended: the router classifies the message as RESEARCH and, since
the delimiter " on " is absent, sets the topic to the entire trimmed
message. -/
theorem router_research_example_full_message_topic :
    route_request (stateWith [humanMsg "Please research the current state of Quantum Computing"]) =
      some (Intent.RESEARCH,
        "Please research the current state of Quantum Computing".toList) := by
  decide

/-- C4: on "Test me on Quantum Computing. What is a qubit?" the router
detects STUDY and extracts the trailing segment after " on ". -/
theorem router_study_example :
    route_request (stateWith [humanMsg "Test me on Quantum Computing. What is a qubit?"]) =
      some (Intent.STUDY, "Quantum Computing. What is a qubit?".toList) := by
  decide

/-- C2 counterexample: on a state with an empty message sequence the
router raises (models `IndexError` from `state["messages"][-1]`) instead
of producing any default topic. -/
theorem router_empty_messages_raises :
    ¬ ∃ p, route_request (stateWith []) = some p := by
  intro ⟨p, h⟩
  simp [route_request, stateWith] at h

/-- C2 amended: the router fails exactly on the empty message sequence;
on every non-empty sequence it returns a result (the graceful fallback
covers only the absent-delimiter case, not the no-message case). -/
theorem router_none_iff_empty (state : RASAState) :
    route_request state = none ↔ state.messages = [] := by
  cases h : state.messages.getLast? with
  | none =>
    simp only [route_request, h]
    simpa using List.getLast?_eq_none_iff.mp h
  | some m =>
    simp only [route_request, h]
    constructor
    · intro hc
      split at hc <;> (try split at hc) <;> simp at hc
    · intro hc
      rw [hc] at h
      simp at h

/-- The knowledge store of custom_tools.py: `user_id -> topic -> findings`,
as an association list (Python dict, insertion-ordered). -/
abbrev Bank := List (Int × List (String × List String))

/-- Association-list lookup; model of Python `dict.get` / `in`. -/
def lookupA {α β : Type} [DecidableEq α] : List (α × β) → α → Option β
  | [], _ => none
  | (a, b) :: rest, k => if a = k then some b else lookupA rest k

/-- Update the binding of `k` by `f`, inserting `f d` at the end when `k`
is absent; models `if k not in d: d[k] = default` followed by a mutation. -/
def upsertA {α β : Type} [DecidableEq α] (k : α) (f : β → β) (d : β) :
    List (α × β) → List (α × β)
  | [] => [(k, f d)]
  | (a, b) :: rest => if a = k then (a, f b) :: rest else (a, b) :: upsertA k f d rest

/-- Embedding of `save_finding` (custom_tools.py, lines 25-41): returns the
updated bank and the confirmation string. -/
def save_finding (db : Bank) (user_id : Int) (topic finding : String) :
    Bank × String :=
  (upsertA user_id (fun ledger => upsertA topic (fun fl => fl ++ [finding]) [] ledger) [] db,
   "Finding successfully saved to Research Bank under topic '" ++ topic ++ "'.")

/-- Embedding of `summarize_topic_knowledge` (custom_tools.py, lines 44-53). -/
def summarize_topic_knowledge (db : Bank) (user_id : Int) (topic : String) : String :=
  let user_data := (lookupA db user_id).getD []
  let findings := (lookupA user_data topic).getD ["No current findings on this topic."]
  "Existing knowledge on '" ++ topic ++ "':\n- " ++ String.intercalate "\n- " findings

/-- Embedding of `RESEARCH_BANK`: the store's initial contents
(custom_tools.py, lines 11-21). -/
def RESEARCH_BANK : Bank :=
  [(101, [("Quantum Computing", ["Initial notes on Qubit entanglement."])])]

/-- The Topic Ledger stored for `u`/`t`, when present. -/
def topicLookup (db : Bank) (u : Int) (t : String) : Option (List String) :=
  lookupA ((lookupA db u).getD []) t

/-- The findings stored for `u`/`t`, defaulting to the empty sequence. -/
def findingsOf (db : Bank) (u : Int) (t : String) : List String :=
  (topicLookup db u t).getD []

/-- Fold `save_finding` over a sequence of findings, in order. -/
def saveAll (db : Bank) (u : Int) (t : String) : List String → Bank
  | [] => db
  | f :: fs => saveAll (save_finding db u t f).1 u t fs

theorem lookupA_upsertA_self {α β : Type} [DecidableEq α] (k : α) (f : β → β) (d : β)
    (l : List (α × β)) :
    lookupA (upsertA k f d l) k = some (f ((lookupA l k).getD d)) := by
  induction l with
  | nil => simp [upsertA, lookupA]
  | cons hd tl ih =>
    obtain ⟨a, b⟩ := hd
    by_cases h : a = k <;> simp [upsertA, lookupA, h, ih]

theorem lookupA_upsertA_ne {α β : Type} [DecidableEq α] (k k' : α) (f : β → β) (d : β)
    (l : List (α × β)) (h : k' ≠ k) :
    lookupA (upsertA k f d l) k' = lookupA l k' := by
  have hkk : ¬ k = k' := fun hk => h hk.symm
  induction l with
  | nil => simp [upsertA, lookupA, hkk]
  | cons hd tl ih =>
    obtain ⟨a, b⟩ := hd
    by_cases ha : a = k
    · subst ha
      simp [upsertA, lookupA, hkk]
    · simp [upsertA, lookupA, ha, ih]

theorem topicLookup_save_self (db : Bank) (u : Int) (t f : String) :
    topicLookup (save_finding db u t f).1 u t = some (findingsOf db u t ++ [f]) := by
  simp [topicLookup, save_finding, findingsOf, lookupA_upsertA_self]

theorem topicLookup_save_frame (db : Bank) (u : Int) (t f : String) (u' : Int) (t' : String)
    (h : ¬(u' = u ∧ t' = t)) :
    topicLookup (save_finding db u t f).1 u' t' = topicLookup db u' t' := by
  by_cases hu : u' = u
  · subst hu
    have ht : t' ≠ t := fun hc => h ⟨rfl, hc⟩
    simp [topicLookup, save_finding, lookupA_upsertA_self, lookupA_upsertA_ne _ _ _ _ _ ht]
  · simp [topicLookup, save_finding, lookupA_upsertA_ne _ _ _ _ _ hu]

theorem findingsOf_save (db : Bank) (u : Int) (t f : String) :
    findingsOf (save_finding db u t f).1 u t = findingsOf db u t ++ [f] := by
  simp [findingsOf, topicLookup_save_self db u t f]

theorem findingsOf_saveAll (db : Bank) (u : Int) (t : String) (fs : List String) :
    findingsOf (saveAll db u t fs) u t = findingsOf db u t ++ fs := by
  induction fs generalizing db with
  | nil => simp [saveAll]
  | cons f fs ih => simp [saveAll, ih, findingsOf_save]

theorem topicLookup_saveAll_self (db : Bank) (u : Int) (t : String) (fs : List String)
    (h : fs ≠ []) :
    topicLookup (saveAll db u t fs) u t = some (findingsOf db u t ++ fs) := by
  induction fs generalizing db with
  | nil => exact absurd rfl h
  | cons f fs ih =>
    cases fs with
    | nil => simpa [saveAll] using topicLookup_save_self db u t f
    | cons g gs =>
      rw [saveAll, ih (save_finding db u t f).1 (by simp)]
      simp [findingsOf_save]

theorem topicLookup_saveAll_frame (db : Bank) (u : Int) (t : String) (fs : List String)
    (u' : Int) (t' : String) (h : ¬(u' = u ∧ t' = t)) :
    topicLookup (saveAll db u t fs) u' t' = topicLookup db u' t' := by
  induction fs generalizing db with
  | nil => rfl
  | cons f fs ih => rw [saveAll, ih, topicLookup_save_frame db u t f u' t' h]

theorem summarize_eq_topicLookup (db : Bank) (u : Int) (t : String) :
    summarize_topic_knowledge db u t =
      "Existing knowledge on '" ++ t ++ "':\n- " ++
        String.intercalate "\n- "
          ((topicLookup db u t).getD ["No current findings on this topic."]) := rfl

/-- C5: saving findings `f1..fn` in order on a user/topic pair whose ledger
starts empty makes the ledger exactly that sequence (order kept, repeats
kept, nothing deduplicated), and the subsequent summary lists exactly
those findings joined as a bulleted list. -/
theorem save_then_summarize_order (db : Bank) (u : Int) (t : String) (fs : List String)
    (h0 : findingsOf db u t = []) (h1 : fs ≠ []) :
    findingsOf (saveAll db u t fs) u t = fs ∧
      summarize_topic_knowledge (saveAll db u t fs) u t =
        "Existing knowledge on '" ++ t ++ "':\n- " ++ String.intercalate "\n- " fs := by
  constructor
  · simp [findingsOf_saveAll, h0]
  · rw [summarize_eq_topicLookup, topicLookup_saveAll_self db u t fs h1, h0]
    simp

/-- C5 witness at a concrete input: user 7, topic "T", findings with a
repeated element, starting from the initial bank. -/
theorem save_then_summarize_order_witness :
    findingsOf (saveAll RESEARCH_BANK 7 "T" ["a", "a", "b"]) 7 "T" = ["a", "a", "b"] ∧
      summarize_topic_knowledge (saveAll RESEARCH_BANK 7 "T" ["a", "a", "b"]) 7 "T" =
        "Existing knowledge on 'T':\n- a\n- a\n- b" := by
  have h := save_then_summarize_order RESEARCH_BANK 7 "T" ["a", "a", "b"]
    (by decide) (by decide)
  refine ⟨h.1, ?_⟩
  rw [h.2]
  rfl

/-- C6: on an unknown user or topic, `summarize_topic_knowledge` returns
the fixed "no findings" placeholder text (and, being a total function,
never fails). -/
theorem summarize_unknown_placeholder (db : Bank) (u : Int) (t : String)
    (h : topicLookup db u t = none) :
    summarize_topic_knowledge db u t =
      "Existing knowledge on '" ++ t ++ "':\n- No current findings on this topic." := by
  have hI : String.intercalate "\n- "
      ((none : Option (List String)).getD ["No current findings on this topic."]) =
      "No current findings on this topic." := rfl
  rw [summarize_eq_topicLookup, h, hI, String.append_assoc]
  rfl

/-- C6 witness: user 202 and topic "History" are unknown to the initial
bank. -/
theorem summarize_unknown_placeholder_witness :
    summarize_topic_knowledge RESEARCH_BANK 202 "History" =
      "Existing knowledge on 'History':\n- No current findings on this topic." :=
  summarize_unknown_placeholder RESEARCH_BANK 202 "History" (by decide)

/-- C7: `save_finding` always succeeds — it returns the confirmation
string, appends the finding to the user/topic ledger (creating the user
record and the ledger when absent), and leaves every other user/topic
entry unchanged. -/
theorem save_finding_always_succeeds (db : Bank) (u : Int) (t f : String) :
    (save_finding db u t f).2 =
        "Finding successfully saved to Research Bank under topic '" ++ t ++ "'." ∧
      topicLookup (save_finding db u t f).1 u t = some (findingsOf db u t ++ [f]) ∧
      ∀ u' t', ¬(u' = u ∧ t' = t) →
        topicLookup (save_finding db u t f).1 u' t' = topicLookup db u' t' :=
  ⟨rfl, topicLookup_save_self db u t f, fun u' t' h => topicLookup_save_frame db u t f u' t' h⟩

/-- C7 witness: saving for the fresh user 7 creates its ledger with exactly
the new finding, returns the confirmation string, and leaves the initial
entry for user 101 untouched. -/
theorem save_finding_always_succeeds_witness :
    (save_finding RESEARCH_BANK 7 "T" "x").2 =
        "Finding successfully saved to Research Bank under topic 'T'." ∧
      topicLookup (save_finding RESEARCH_BANK 7 "T" "x").1 7 "T" = some ["x"] ∧
      topicLookup (save_finding RESEARCH_BANK 7 "T" "x").1 101 "Quantum Computing" =
        some ["Initial notes on Qubit entanglement."] := by
  obtain ⟨h1, h2, h3⟩ := save_finding_always_succeeds RESEARCH_BANK 7 "T" "x"
  refine ⟨by rw [h1]; rfl, by rw [h2]; rfl, ?_⟩
  rw [h3 101 "Quantum Computing" (by decide)]
  rfl

/-- C10: before any `save_finding` call the store is non-empty — it holds
exactly user 101 with topic "Quantum Computing" and the single finding
"Initial notes on Qubit entanglement.", summarized as that finding rather
than the placeholder, while every other user/topic pair is absent. -/
theorem initial_bank_contents :
    topicLookup RESEARCH_BANK 101 "Quantum Computing" =
        some ["Initial notes on Qubit entanglement."] ∧
      summarize_topic_knowledge RESEARCH_BANK 101 "Quantum Computing" =
        "Existing knowledge on 'Quantum Computing':\n- Initial notes on Qubit entanglement." ∧
      ∀ u t, ¬(u = 101 ∧ t = "Quantum Computing") →
        topicLookup RESEARCH_BANK u t = none := by
  refine ⟨rfl, rfl, fun u t h => ?_⟩
  by_cases hu : u = 101
  · subst hu
    have ht : ¬("Quantum Computing" = t) := fun hc => h ⟨rfl, hc.symm⟩
    simp [topicLookup, RESEARCH_BANK, lookupA, ht]
  · have hu' : ¬((101 : Int) = u) := fun hc => hu hc.symm
    simp [topicLookup, RESEARCH_BANK, lookupA, hu']

/-- C10 witness: the absence clause applied at the concrete unseen pair
(user 5, topic "X"), together with the concrete initial contents. -/
theorem initial_bank_contents_witness :
    topicLookup RESEARCH_BANK 5 "X" = none ∧
      summarize_topic_knowledge RESEARCH_BANK 101 "Quantum Computing" =
        "Existing knowledge on 'Quantum Computing':\n- Initial notes on Qubit entanglement." :=
  ⟨initial_bank_contents.2.2 5 "X" (by decide), initial_bank_contents.2.1⟩

/-- The nodes of the orchestration graph built in main.py (lines 135-171),
with `done` standing for the framework's END. -/
inductive NodeTag where
  | router
  | research_agent
  | study_agent
  | tool_executor
  | done
deriving DecidableEq

/-- The two labels returned by `check_agent_status`. -/
inductive Decision where
  | call_tool
  | respond_final
deriving DecidableEq

/-- Embedding of `check_agent_status` (main.py, lines 120-129): `none`
models the exception on an empty message list; a non-empty `tool_calls`
(Python truthiness) yields `call_tool`, otherwise `respond_final`. -/
def check_agent_status (state : RASAState) : Option Decision :=
  match state.messages.getLast? with
  | none => none
  | some m => if m.toolCalls ≠ [] then some .call_tool else some .respond_final

/-- Embedding of the graph's edges (main.py, lines 144-171): the node the
framework visits after `n` given the current state. `none` models both
END-termination bookkeeping absence and a failed guard. -/
def nextNode (n : NodeTag) (state : RASAState) : Option NodeTag :=
  match n with
  | .router =>
    match state.intent with
    | .RESEARCH => some .research_agent
    | .STUDY => some .study_agent
    | .GENERAL => some .done
  | .research_agent =>
    (check_agent_status state).map fun d =>
      match d with
      | .call_tool => .tool_executor
      | .respond_final => .done
  | .study_agent => some .done
  | .tool_executor => some .research_agent
  | .done => none

/-- C8: after the Research Agent produces a message, the orchestrator
moves to the tool executor exactly when that message carries at least one
Tool Call Request, terminates otherwise, and after tool execution control
always returns to the Research Agent (one tool-executor visit per batch). -/
theorem research_loop_transitions (state : RASAState) (m : Msg)
    (h : state.messages.getLast? = some m) :
    (nextNode .research_agent state = some .tool_executor ↔ m.toolCalls ≠ []) ∧
      (nextNode .research_agent state = some .done ↔ m.toolCalls = []) ∧
      nextNode .tool_executor state = some .research_agent := by
  refine ⟨?_, ?_, rfl⟩ <;>
    by_cases hm : m.toolCalls = [] <;>
      simp [nextNode, check_agent_status, h, hm]

/-- C8 witness: a state whose last message requests one tool call goes to
the tool executor, and the tool executor always hands back to the research
agent. -/
theorem research_loop_transitions_witness :
    nextNode .research_agent
        (stateWith [{ content := [], toolCalls := [{ name := "save_finding".toList, args := [] }] }]) =
        some .tool_executor ∧
      nextNode .tool_executor
        (stateWith [{ content := [], toolCalls := [{ name := "save_finding".toList, args := [] }] }]) =
        some .research_agent := by
  have h := research_loop_transitions
    (stateWith [{ content := [], toolCalls := [{ name := "save_finding".toList, args := [] }] }])
    { content := [], toolCalls := [{ name := "save_finding".toList, args := [] }] } rfl
  exact ⟨h.1.mpr (by decide), h.2.2⟩

/-- The modules imported by main.py, lines 1-12 (plus the guarded
custom_tools import): `os` is not among them. -/
def mainModuleImports : List String :=
  ["logging", "typing", "operator", "langchain_core.messages",
   "langchain_google_genai", "langgraph.graph", "langgraph.checkpoint.memory",
   "langgraph.prebuilt", "langchain_community.tools",
   "langchain_community.utilities", "dotenv", "custom_tools"]

/-- Embedding of the module-level credential check (main.py, lines 31-33):
evaluating `os.getenv("GEMINI_API_KEY")` first requires the name `os` to be
in scope; only then is the key's presence (and Python truthiness) tested. -/
def apiKeyStartup (env : String → Option String) : Except String Unit :=
  if mainModuleImports.contains "os" then
    match env "GEMINI_API_KEY" with
    | none => .error "ValueError: GEMINI_API_KEY environment variable not set. Please set it."
    | some v =>
      if v = "" then
        .error "ValueError: GEMINI_API_KEY environment variable not set. Please set it."
      else .ok ()
  else .error "NameError: name 'os' is not defined"

/-- C9 (code bug): even with GEMINI_API_KEY present in the environment,
startup does not proceed past the credential check — main.py never imports
`os`, so line 32 raises NameError before the key is ever read. -/
theorem startup_name_error_with_key_present :
    apiKeyStartup (fun k => if k = "GEMINI_API_KEY" then some "AIza-test" else none) =
      .error "NameError: name 'os' is not defined" := rfl

theorem splitOnSep_ne_nil (s : List Char) : splitOnSep s ≠ [] := by
  induction s using splitOnSep.induct with
  | case1 => simp [splitOnSep]
  | case2 rest ih => simp [splitOnSep]
  | case3 c rest hne hsplit ih => exact absurd hsplit ih
  | case4 c rest hne p ps hsplit ih =>
    rw [splitOnSep.eq_3 c rest hne, hsplit]
    simp

theorem splitOnSep_of_no_sep (s : List Char) :
    hasSub (" on ".toList) s = false → splitOnSep s = [s] := by
  have hpat : (" on ".toList) = [' ', 'o', 'n', ' '] := rfl
  induction s using splitOnSep.induct with
  | case1 => intro _; rfl
  | case2 rest ih =>
    intro h
    rw [hpat] at h
    simp [hasSub, startsWithL] at h
  | case3 c rest hne hsplit ih => exact absurd hsplit (splitOnSep_ne_nil rest)
  | case4 c rest hne p ps hsplit ih =>
    intro h
    rw [hasSub] at h
    have h2 : hasSub (" on ".toList) rest = false := (Bool.or_eq_false_iff.mp h).2
    rw [splitOnSep.eq_3 c rest hne, ih h2]

/-- Stated from the claim's words: a case-insensitive substring match of
`pat` against message `m`. -/
def caseInsensitiveMatch (pat m : List Char) : Bool :=
  hasSub (toLowerL pat) (toLowerL m)

/-- Stated from the claim's words: the intent classification — containing
"research" or "find facts" gives RESEARCH; otherwise "test me" or
"explain" gives STUDY; otherwise GENERAL (checked in that order). -/
def routerSpecIntent (m : List Char) : Intent :=
  if caseInsensitiveMatch ("research".toList) m ||
      caseInsensitiveMatch ("find facts".toList) m then .RESEARCH
  else if caseInsensitiveMatch ("test me".toList) m ||
      caseInsensitiveMatch ("explain".toList) m then .STUDY
  else .GENERAL

/-- Stated from the claim's words: for RESEARCH/STUDY the topic is the
trailing segment after splitting on the literal " on " (trimmed), falling
back to the entire trimmed message when the delimiter is absent; GENERAL
fixes the topic to "General Inquiry". -/
def routerSpecTopic (m : List Char) : Intent → List Char
  | .GENERAL => "General Inquiry".toList
  | _ => if hasSub (" on ".toList) m then stripL (lastD (splitOnSep m)) else stripL m

/-- Stated from the claim's words: the full (intent, topic) result of the
Router on the latest message. -/
def routerSpec (m : List Char) : Intent × List Char :=
  (routerSpecIntent m, routerSpecTopic m (routerSpecIntent m))

theorem codeTopic_eq_specTopic (mc : List Char) :
    stripL (lastD (splitOnSep mc)) =
      if hasSub (" on ".toList) mc then stripL (lastD (splitOnSep mc)) else stripL mc := by
  by_cases hsep : hasSub (" on ".toList) mc = true
  · rw [if_pos hsep]
  · have hs := splitOnSep_of_no_sep mc (by simpa using hsep)
    simp [hsep, hs, lastD]

/-- C3: on every non-empty message sequence the Router's behaviour matches
the claim, word for word: case-insensitive keyword classification checked
in order, topic from the trailing segment of the literal " on " split
(trimmed) with whole-trimmed-message fallback, and the fixed placeholder
for GENERAL. -/
theorem router_matches_spec (state : RASAState) (m : Msg)
    (h : state.messages.getLast? = some m) :
    route_request state = some (routerSpec m.content) := by
  have e1 : toLowerL ("research".toList) = "research".toList := by decide
  have e2 : toLowerL ("find facts".toList) = "find facts".toList := by decide
  have e3 : toLowerL ("test me".toList) = "test me".toList := by decide
  have e4 : toLowerL ("explain".toList) = "explain".toList := by decide
  by_cases hA : (hasSub ("research".toList) (toLowerL m.content) ||
      hasSub ("find facts".toList) (toLowerL m.content)) = true
  · simp only [route_request, h, routerSpec, routerSpecIntent, caseInsensitiveMatch,
      e1, e2, e3, e4, hA, if_true]
    rw [codeTopic_eq_specTopic m.content]
    rfl
  · by_cases hB : (hasSub ("test me".toList) (toLowerL m.content) ||
        hasSub ("explain".toList) (toLowerL m.content)) = true
    · simp only [route_request, h, routerSpec, routerSpecIntent, caseInsensitiveMatch,
        e1, e2, e3, e4, hA, hB, Bool.false_eq_true, if_false, if_true]
      rw [codeTopic_eq_specTopic m.content]
      rfl
    · simp only [route_request, h, routerSpec, routerSpecIntent, caseInsensitiveMatch,
        e1, e2, e3, e4, hA, hB, Bool.false_eq_true, if_false]
      rfl

/-- C3 witness: the refinement applied at the concrete state holding the
STUDY example message, with the non-emptiness hypothesis discharged by
evaluation. -/
theorem router_matches_spec_witness :
    route_request (stateWith [humanMsg "Test me on Quantum Computing. What is a qubit?"]) =
      some (routerSpec (humanMsg "Test me on Quantum Computing. What is a qubit?").content) :=
  router_matches_spec (stateWith [humanMsg "Test me on Quantum Computing. What is a qubit?"])
    (humanMsg "Test me on Quantum Computing. What is a qubit?") rfl
